import Mathlib

/-
Shallow embedding of the registry and wire-protocol core of the ProjectObsidian
server source: blocks.py (the _BlockManager singleton), packet.py (the
_DirectionalPacketManager, packageString and unpackString) and the two CPE
modules texthotkey.py and clickdistance.py.

Modelling conventions:
- a Python dict is an insertion-ordered association list; assignment updates an
  existing key in place and otherwise appends at the end, and iteration walks
  the list in order, exactly as CPython guarantees;
- a raised exception is an explicit result value that carries the state of the
  manager at the moment of the raise (the Python objects mutate in place, so a
  caller that catches the exception observes that state);
- Logger calls are modelled only where the claims mention the emitted warning
  (the override-no-effect warning becomes a Bool in the register result) or
  where evaluating the arguments of the call can itself raise (the f-string of
  the override debug message indexes a dict and can raise KeyError);
- byte strings and decoded text are lists of byte values (Nat below 256);
  ASCII encode and decode are the identity on values below 128.
-/

namespace Obsidian

/-- Error kinds raised by the embedded code. `initRegisterError` is the
InitRegisterError of errors.py (the RegistrationConflict of the spec),
`keyError` is the Python KeyError, `blockError` and `packetError` are the
lookup failures of blocks.py line 137 and packet.py line 186 (the NotFound of
the spec). -/
inductive RegError where
  | initRegisterError : RegError
  | keyError : RegError
  | blockError : RegError
  | packetError : RegError
  deriving DecidableEq

/-- Result of a register call: `ok state warned` on success, where `warned`
records whether the override-no-effect warning was emitted, or `err kind state`
when an exception was raised, carrying the manager state at raise time. -/
inductive RegResult (σ : Type) where
  | ok : σ → Bool → RegResult σ
  | err : RegError → σ → RegResult σ
  deriving DecidableEq

/-- Result of a lookup call. -/
inductive LookupResult (α : Type) where
  | ok : α → LookupResult α
  | error : RegError → LookupResult α
  deriving DecidableEq

/-- Lookup in a Python dict modelled as an association list: the value at the
first (hence only) occurrence of the key. -/
def dictFind {α β : Type} [DecidableEq α] (k : α) (d : List (α × β)) : Option β :=
  (d.find? (fun p => decide (p.1 = k))).map (fun p => p.2)

/-- Python `k in d` membership test on a dict. -/
def dictContains {α β : Type} [DecidableEq α] (k : α) (d : List (α × β)) : Bool :=
  (dictFind k d).isSome

/-- Python `d[k] = v`: update the existing key in place, otherwise append. -/
def dictInsert {α β : Type} [DecidableEq α] (k : α) (v : β) (d : List (α × β)) :
    List (α × β) :=
  if dictContains k d then d.map (fun p => if p.1 = k then (k, v) else p)
  else d ++ [(k, v)]

/-- Python str.lower, restricted to the ASCII names used by the registries. -/
def pyLower (s : String) : String :=
  String.mk (s.data.map Char.toLower)

/-- Whether Python str.strip removes this byte once it is decoded: the ASCII
whitespace of CPython (tab through carriage return, the separator controls
28 to 31, and space). -/
def isPySpace (b : Nat) : Bool :=
  decide (b = 9 ∨ b = 10 ∨ b = 11 ∨ b = 12 ∨ b = 13 ∨
    b = 28 ∨ b = 29 ∨ b = 30 ∨ b = 31 ∨ b = 32)

/-- Python str.strip with no argument: drop whitespace from both ends. -/
def pyStrip (s : List Nat) : List Nat :=
  ((s.dropWhile isPySpace).reverse.dropWhile isPySpace).reverse

/-- Python str.ljust against width w, padding with spaces (byte 32). -/
def ljust (s : List Nat) (w : Nat) : List Nat :=
  s ++ List.replicate (w - s.length) 32

/-- `unpackString` (packet.py lines 26 to 30): remove every NUL byte, decode as
ASCII ignoring undecodable bytes (drop everything at or above 128), then strip
whitespace from both ends. -/
def unpackString (data : List Nat) : List Nat :=
  pyStrip ((data.filter (fun b => decide (b ≠ 0))).filter (fun b => decide (b < 128)))

/-- `packageString` (packet.py lines 33 to 38): trim to maxSize, pad on the
right with spaces to exactly maxSize, then encode as strict ASCII, which raises
(modelled as `none`) when a value at or above 128 is present. -/
def packageString (data : List Nat) (maxSize : Nat) : Option (List Nat) :=
  if (ljust (data.take maxSize) maxSize).all (fun b => decide (b < 128)) then
    some (ljust (data.take maxSize) maxSize)
  else none

/-- A registered block (blocks.py AbstractBlock): the fields read by
`_BlockManager.register` and the lookups. The submodule construction machinery
(`_initSubmodule`) only builds this record and is not itself modelled. -/
structure AbstractBlock where
  NAME : String
  ID : Int
  MODULE : String
  OVERRIDE : Bool
  deriving DecidableEq

/-- State of the `_BlockManager` singleton: the name-keyed `_blockDict` and the
id-keyed `_blockIds` cache (blocks.py lines 67 to 69). -/
structure BlockState where
  blockDict : List (String × AbstractBlock)
  blockIds : List (Int × AbstractBlock)
  deriving DecidableEq

/-- Tail of `_BlockManager.register` after the override special-case handling
(blocks.py lines 93 to 112): name-conflict check, id insert or id-conflict
check, then the name insert. -/
def registerBlockChecks (b : AbstractBlock) (s : BlockState) (warned : Bool) :
    RegResult BlockState :=
  if dictContains b.NAME s.blockDict && !b.OVERRIDE then
    .err .initRegisterError s
  else if !(dictContains b.ID s.blockIds) || b.OVERRIDE then
    .ok ⟨dictInsert b.NAME b (s.blockDict), dictInsert b.ID b (s.blockIds)⟩ warned
  else
    .err .initRegisterError s

/-- `_BlockManager.register` (blocks.py lines 72 to 112). When OVERRIDE is set
and neither key collides, the override-no-effect warning of line 85 is emitted;
otherwise the debug message of line 91 evaluates `self._blockIds[block.ID]`,
which raises KeyError when the id is not registered. -/
def registerBlock (b : AbstractBlock) (s : BlockState) : RegResult BlockState :=
  if b.OVERRIDE then
    if !(dictContains b.ID s.blockIds) && !(dictContains b.NAME s.blockDict) then
      registerBlockChecks b s true
    else
      match dictFind b.ID s.blockIds with
      | none => .err .keyError s
      | some _ => registerBlockChecks b s false
  else
    registerBlockChecks b s false

/-- `_BlockManager.getBlockById` (blocks.py lines 134 to 137). -/
def getBlockById (blockId : Int) (s : BlockState) : LookupResult AbstractBlock :=
  match dictFind blockId s.blockIds with
  | some b => .ok b
  | none => .error .blockError

/-- `_BlockManager.getBlock` (blocks.py lines 140 to 146); ignoreCase defaults
to true in the source. The case-insensitive scan walks the dict in insertion
order and returns the first name whose lowercasing matches. -/
def getBlock (block : String) (s : BlockState) (ignoreCase : Bool) :
    LookupResult AbstractBlock :=
  if ignoreCase then
    match s.blockDict.find? (fun p => decide (pyLower p.1 = pyLower block)) with
    | some p => .ok p.2
    | none => .error .keyError
  else
    match dictFind block s.blockDict with
    | some b => .ok b
    | none => .error .keyError

/-- `_BlockManager.__contains__` (blocks.py lines 161 to 162): exact-case
membership in the name dict. -/
def blockContains (block : String) (s : BlockState) : Bool :=
  dictContains block s.blockDict

/-- Driving a list of block registrations in order, stopping at the first
raised exception, as the module loader does during the registration phase. -/
def registerBlockSeq : List AbstractBlock → BlockState → RegResult BlockState
  | [], s => .ok s false
  | b :: bs, s =>
    match registerBlock b s with
    | .ok s1 _ => registerBlockSeq bs s1
    | .err e s1 => .err e s1

/-- A registered packet (packet.py AbstractPacket and AbstractRequestPacket):
the fields read by `_DirectionalPacketManager.register` and the lookups.
`isRequestPacket` models the isinstance test of line 167. -/
structure AbstractPacket where
  NAME : String
  ID : Int
  MODULE : String
  OVERRIDE : Bool
  CRITICAL : Bool
  PLAYERLOOP : Bool
  isRequestPacket : Bool
  deriving DecidableEq

/-- State of a `_DirectionalPacketManager` (packet.py lines 126 to 136): the
name-keyed `_packetDict` and, for the REQUEST direction, the id-keyed
`loopPackets` hot-path cache. -/
structure PacketState where
  packetDict : List (String × AbstractPacket)
  loopPackets : List (Int × AbstractPacket)
  deriving DecidableEq

/-- `_DirectionalPacketManager.getAllPacketIds` (packet.py lines 178 to 179). -/
def getAllPacketIds (s : PacketState) : List Int :=
  s.packetDict.map (fun p => p.2.ID)

/-- Python `==` between an int and a str is always False without raising; this
is what the membership test `packet.ID not in self._packetDict` of packet.py
line 151 evaluates against every (string) key of the dict. -/
def intEqStr (_i : Int) (_k : String) : Bool :=
  false

/-- Python `==` between a str and an int is always False without raising; this
is what the membership test `packet.NAME not in self.getAllPacketIds()` of
packet.py line 151 evaluates against every (integer) element of the list. -/
def strEqInt (_n : String) (_i : Int) : Bool :=
  false

/-- Tail of `_DirectionalPacketManager.register` after the override
special-case handling (packet.py lines 159 to 176): name-conflict check,
id-conflict check against the ids of the registered values, the hot-path cache
insert for request packets flagged PLAYERLOOP, then the name insert. -/
def registerPacketChecks (pk : AbstractPacket) (s : PacketState) (warned : Bool) :
    RegResult PacketState :=
  if dictContains pk.NAME s.packetDict && !pk.OVERRIDE then
    .err .initRegisterError s
  else if (getAllPacketIds s).any (fun i => decide (i = pk.ID)) && !pk.OVERRIDE then
    .err .initRegisterError s
  else
    let loop :=
      if pk.isRequestPacket && pk.PLAYERLOOP then dictInsert pk.ID pk (s.loopPackets)
      else s.loopPackets
    .ok ⟨dictInsert pk.NAME pk (s.packetDict), loop⟩ warned

/-- `_DirectionalPacketManager.register` (packet.py lines 139 to 176). The
override-no-effect test of line 151 compares the packet id against the
name-keyed dict and the packet name against the id list, so both membership
tests are always false and the warning of line 152 is emitted on every
override; the debug message of line 157 would index `_packetDict[packet.NAME]`
but is unreachable. -/
def registerPacket (pk : AbstractPacket) (s : PacketState) : RegResult PacketState :=
  if pk.OVERRIDE then
    if !(s.packetDict.any (fun p => intEqStr pk.ID p.1)) &&
        !((getAllPacketIds s).any (fun i => strEqInt pk.NAME i)) then
      registerPacketChecks pk s true
    else
      match dictFind pk.NAME s.packetDict with
      | none => .err .keyError s
      | some _ => registerPacketChecks pk s false
  else
    registerPacketChecks pk s false

/-- The scan of packet.py lines 183 to 185: walk the registered values in
insertion order and return the first one whose ID matches. -/
def findValById (packetId : Int) (d : List (String × AbstractPacket)) :
    Option AbstractPacket :=
  (d.find? (fun p => decide (p.2.ID = packetId))).map (fun p => p.2)

/-- `_DirectionalPacketManager.getPacketById` (packet.py lines 181 to 186). -/
def getPacketById (packetId : Int) (s : PacketState) : LookupResult AbstractPacket :=
  match findValById packetId s.packetDict with
  | some p => .ok p
  | none => .error .packetError

/-- `_DirectionalPacketManager.getPacket` (packet.py lines 189 to 195);
ignoreCase defaults to true in the source. -/
def getPacket (packet : String) (s : PacketState) (ignoreCase : Bool) :
    LookupResult AbstractPacket :=
  if ignoreCase then
    match s.packetDict.find? (fun p => decide (pyLower p.1 = pyLower packet)) with
    | some p => .ok p.2
    | none => .error .keyError
  else
    match dictFind packet s.packetDict with
    | some b => .ok b
    | none => .error .keyError

/-- `_DirectionalPacketManager.__contains__` (packet.py lines 210 to 211):
exact-case membership in the name dict. -/
def packetContains (packet : String) (s : PacketState) : Bool :=
  dictContains packet s.packetDict

/-- Driving a list of packet registrations in order, stopping at the first
raised exception. -/
def registerPacketSeq : List AbstractPacket → PacketState → RegResult PacketState
  | [], s => .ok s false
  | pk :: ps, s =>
    match registerPacket pk s with
    | .ok s1 _ => registerPacketSeq ps s1
    | .err e s1 => .err e s1

/-- A CPE capability, identified by name and version (cpe.py CPEExtension). -/
structure CPEExtension where
  extName : String
  extVersion : Int
  deriving DecidableEq

/-- Modelled from the spec: `Player.supports` of player.py is not under src;
section 4.4 defines it as membership of the (name, version) pair in the
connection effective capability set. -/
def supports (caps : List CPEExtension) (ext : CPEExtension) : Bool :=
  caps.any (fun c => decide (c = ext))

/-- A packet dispatched to one connection. The dispatcher itself (network.py,
not under src) is modelled from the spec as the raw transport write of
section 6, with no gating of its own. -/
inductive SentPacket where
  | setTextHotKey : String → String → Int → Int → SentPacket
  | setClickDistance : Int → SentPacket
  deriving DecidableEq

/-- One configured hotkey of the TextHotKey module. -/
structure Hotkey where
  label : String
  action : String
  keyCode : Int
  keyMods : Int
  deriving DecidableEq

/-- `sendTextHotkeys` post-login hook (texthotkey.py lines 48 to 71), as the
list of packets dispatched to the joining connection: the hook consults
`supports` for ("TextHotKey", 1) and silently skips when it is absent. -/
def sendTextHotkeys (caps : List CPEExtension) (hotkeys : List Hotkey) :
    List SentPacket :=
  if supports caps ⟨"TextHotKey", 1⟩ then
    hotkeys.map (fun h => .setTextHotKey h.label h.action h.keyCode h.keyMods)
  else []

/-- `sendClickDistance` join hook (clickdistance.py lines 82 to 90), through
the injected `Player.setClickDistance` of lines 56 to 62: the SetClickDistance
packet is dispatched without any `supports` consultation. -/
def sendClickDistance (_caps : List CPEExtension) (distance : Int) :
    List SentPacket :=
  [.setClickDistance distance]

/-- Appending entries on the right does not change a lookup that already
succeeds. -/
lemma dictFind_append_of_some {α β : Type} [DecidableEq α] {k : α} {v : β}
    {d1 : List (α × β)} (d2 : List (α × β)) (h : dictFind k d1 = some v) :
    dictFind k (d1 ++ d2) = some v := by
  unfold dictFind at h ⊢
  rcases Option.map_eq_some'.mp h with ⟨a, ha, hv⟩
  rw [List.find?_append, ha]
  simp [hv]

/-- A lookup that fails on the left part falls through to the appended part. -/
lemma dictFind_append_of_none {α β : Type} [DecidableEq α] {k : α}
    {d1 : List (α × β)} (d2 : List (α × β)) (h : dictFind k d1 = none) :
    dictFind k (d1 ++ d2) = dictFind k d2 := by
  unfold dictFind at h ⊢
  rw [List.find?_append, Option.map_eq_none'.mp h]
  simp

/-- Lookup of the key of a one-entry dict. -/
lemma dictFind_singleton {α β : Type} [DecidableEq α] (k : α) (v : β) :
    dictFind k [(k, v)] = some v := by
  simp [dictFind]

/-- Absent membership is the same as a failing lookup. -/
lemma dictContains_false_iff {α β : Type} [DecidableEq α] {k : α}
    {d : List (α × β)} : dictContains k d = false ↔ dictFind k d = none := by
  unfold dictContains
  cases h : dictFind k d <;> simp

/-- A failing lookup means no entry carries the key. -/
lemma dictFind_eq_none_iff {α β : Type} [DecidableEq α] {k : α}
    {d : List (α × β)} : dictFind k d = none ↔ ∀ pr ∈ d, pr.1 ≠ k := by
  unfold dictFind
  rw [Option.map_eq_none', List.find?_eq_none]
  simp

/-- Assignment of an absent key appends the new entry at the end. -/
lemma dictInsert_of_not_contains {α β : Type} [DecidableEq α] {k : α} {v : β}
    {d : List (α × β)} (h : dictContains k d = false) :
    dictInsert k v d = d ++ [(k, v)] := by
  simp [dictInsert, h]

/-- A successful lookup exhibits the entry in the dict. -/
lemma mem_of_dictFind_eq_some {α β : Type} [DecidableEq α] {k : α} {v : β}
    {d : List (α × β)} (h : dictFind k d = some v) : (k, v) ∈ d := by
  unfold dictFind at h
  rcases Option.map_eq_some'.mp h with ⟨a, ha, hv⟩
  have hm := List.mem_of_find?_eq_some ha
  have hp : a.1 = k := by simpa using List.find?_some ha
  obtain ⟨a1, a2⟩ := a
  cases hp
  cases hv
  exact hm

/-- A successful registration without override has a fresh name and a fresh
id, and extends both maps by appending the same new entry. -/
lemma registerBlock_fresh_ok {b : AbstractBlock} {s sr : BlockState} {w : Bool}
    (hov : b.OVERRIDE = false) (hreg : registerBlock b s = .ok sr w) :
    dictContains b.NAME s.blockDict = false ∧
    dictContains b.ID s.blockIds = false ∧
    sr.blockDict = s.blockDict ++ [(b.NAME, b)] ∧
    sr.blockIds = s.blockIds ++ [(b.ID, b)] := by
  by_cases hN : dictContains b.NAME s.blockDict = true
  · simp [registerBlock, registerBlockChecks, hov, hN] at hreg
  · have hN2 : dictContains b.NAME s.blockDict = false := by
      cases h : dictContains b.NAME s.blockDict
      · rfl
      · exact absurd h hN
    by_cases hI : dictContains b.ID s.blockIds = true
    · simp [registerBlock, registerBlockChecks, hov, hN2, hI] at hreg
    · have hI2 : dictContains b.ID s.blockIds = false := by
        cases h : dictContains b.ID s.blockIds
        · rfl
        · exact absurd h hI
      simp only [registerBlock, registerBlockChecks, hov, hN2, hI2,
        Bool.false_eq_true, if_false, Bool.not_false, Bool.and_false,
        Bool.false_and, Bool.or_false, Bool.not_true, if_true] at hreg
      rw [RegResult.ok.injEq] at hreg
      obtain ⟨hstate, hw⟩ := hreg
      subst hstate
      refine ⟨hN2, hI2, ?_, ?_⟩
      · exact dictInsert_of_not_contains hN2
      · exact dictInsert_of_not_contains hI2

/-- Invariant of the block manager maintained by override-free registration:
the name and id views carry the same entries, consistently keyed, and no two
names collide case-insensitively. -/
def BlockInv (s : BlockState) : Prop :=
  (∀ pr ∈ s.blockDict, dictFind pr.2.ID s.blockIds = some pr.2 ∧ pr.2.NAME = pr.1) ∧
  (∀ pr ∈ s.blockIds, dictFind pr.2.NAME s.blockDict = some pr.2 ∧ pr.2.ID = pr.1) ∧
  (s.blockDict.map (fun pr => pyLower pr.1)).Nodup

/-- One override-free successful registration preserves the invariant and
appends the new lowercased name to the key list. -/
lemma BlockInv_step {b : AbstractBlock} {s sr : BlockState} {w : Bool}
    (hov : b.OVERRIDE = false)
    (hci : ∀ pr ∈ s.blockDict, pyLower pr.1 ≠ pyLower b.NAME)
    (hinv : BlockInv s) (hreg : registerBlock b s = .ok sr w) :
    BlockInv sr ∧
      sr.blockDict.map (fun pr => pyLower pr.1)
        = s.blockDict.map (fun pr => pyLower pr.1) ++ [pyLower b.NAME] := by
  obtain ⟨hN, hI, hD, hIds⟩ := registerBlock_fresh_ok hov hreg
  obtain ⟨inv1, inv2, inv3⟩ := hinv
  have hNn : dictFind b.NAME s.blockDict = none := dictContains_false_iff.mp hN
  have hIn : dictFind b.ID s.blockIds = none := dictContains_false_iff.mp hI
  refine ⟨⟨?_, ?_, ?_⟩, ?_⟩
  · intro pr hpr
    rw [hD] at hpr
    rw [hIds]
    rcases List.mem_append.mp hpr with hm | hm
    · obtain ⟨h1, h2⟩ := inv1 pr hm
      exact ⟨dictFind_append_of_some _ h1, h2⟩
    · have hpr2 : pr = (b.NAME, b) := by simpa using hm
      subst hpr2
      rw [dictFind_append_of_none _ hIn, dictFind_singleton]
      exact ⟨rfl, rfl⟩
  · intro pr hpr
    rw [hIds] at hpr
    rw [hD]
    rcases List.mem_append.mp hpr with hm | hm
    · obtain ⟨h1, h2⟩ := inv2 pr hm
      exact ⟨dictFind_append_of_some _ h1, h2⟩
    · have hpr2 : pr = (b.ID, b) := by simpa using hm
      subst hpr2
      rw [dictFind_append_of_none _ hNn, dictFind_singleton]
      exact ⟨rfl, rfl⟩
  · rw [hD, List.map_append, List.nodup_append]
    refine ⟨inv3, by simp, ?_⟩
    intro x hx hx2
    have hx3 : x = pyLower b.NAME := by simpa using hx2
    rcases List.mem_map.mp hx with ⟨pr, hpr, hpx⟩
    exact hci pr hpr (hx3 ▸ hpx)
  · rw [hD, List.map_append]
    simp

/-- Running an override-free list of registrations preserves the invariant,
provided the incoming names stay case-insensitively disjoint from each other
and from the names already registered. -/
lemma registerBlockSeq_inv (bs : List AbstractBlock) :
    ∀ (s sr : BlockState) (w : Bool),
    (∀ b ∈ bs, b.OVERRIDE = false) →
    (s.blockDict.map (fun pr => pyLower pr.1)
      ++ bs.map (fun b => pyLower b.NAME)).Nodup →
    BlockInv s → registerBlockSeq bs s = .ok sr w → BlockInv sr := by
  induction bs with
  | nil =>
    intro s sr w _ _ hinv hrun
    simp only [registerBlockSeq] at hrun
    rw [RegResult.ok.injEq] at hrun
    rw [← hrun.1]
    exact hinv
  | cons b bs ih =>
    intro s sr w hall hnd hinv hrun
    simp only [registerBlockSeq] at hrun
    cases hr : registerBlock b s with
    | err e s1 => rw [hr] at hrun; simp at hrun
    | ok s1 w1 =>
      rw [hr] at hrun
      simp only [List.map_cons] at hnd
      have hci : ∀ pr ∈ s.blockDict, pyLower pr.1 ≠ pyLower b.NAME := by
        intro pr hpr he
        have hdis := (List.nodup_append.mp hnd).2.2
        exact hdis (List.mem_map_of_mem _ hpr) (by simp [he])
      obtain ⟨hinv1, hkeys⟩ := BlockInv_step (hall b (by simp)) hci hinv hr
      apply ih s1 sr w (fun x hx => hall x (by simp [hx])) ?_ hinv1 hrun
      rw [hkeys, List.append_assoc, List.singleton_append]
      exact hnd

/-- The invariant yields the agreement of the two lookups stated by the spec:
what the name lookup returns is what the id lookup returns at its id, and the
other way round. -/
lemma blockInv_lookup_agree {s : BlockState} (hinv : BlockInv s) :
    (∀ (q : String) (b : AbstractBlock), getBlock q s true = .ok b →
        getBlockById b.ID s = .ok b) ∧
    (∀ (i : Int) (b : AbstractBlock), getBlockById i s = .ok b →
        getBlock b.NAME s true = .ok b) := by
  obtain ⟨inv1, inv2, inv3⟩ := hinv
  constructor
  · intro q b hq
    have hred : getBlock q s true
        = (match s.blockDict.find? (fun p => decide (pyLower p.1 = pyLower q)) with
          | some p => LookupResult.ok p.2
          | none => LookupResult.error RegError.keyError) := rfl
    rw [hred] at hq
    cases hf : s.blockDict.find? (fun p => decide (pyLower p.1 = pyLower q)) with
    | none => rw [hf] at hq; cases hq
    | some pr =>
      rw [hf] at hq
      cases hq
      have hm := List.mem_of_find?_eq_some hf
      have h1 := (inv1 pr hm).1
      unfold getBlockById
      rw [h1]
  · intro i b hb
    unfold getBlockById at hb
    cases hf : dictFind i s.blockIds with
    | none => rw [hf] at hb; cases hb
    | some v =>
      rw [hf] at hb
      cases hb
      have hm := mem_of_dictFind_eq_some hf
      have h2 := (inv2 (i, b) hm).1
      have hmem : (b.NAME, b) ∈ s.blockDict := mem_of_dictFind_eq_some h2
      have hred : getBlock b.NAME s true
          = (match s.blockDict.find?
                (fun p => decide (pyLower p.1 = pyLower b.NAME)) with
            | some p => LookupResult.ok p.2
            | none => LookupResult.error RegError.keyError) := rfl
      rw [hred]
      cases hg : s.blockDict.find? (fun p => decide (pyLower p.1 = pyLower b.NAME)) with
      | none =>
        exfalso
        have := List.find?_eq_none.mp hg (b.NAME, b) hmem
        simp at this
      | some pr =>
        have hprm := List.mem_of_find?_eq_some hg
        have hpred : pyLower pr.1 = pyLower b.NAME := by
          simpa using List.find?_some hg
        have hpr2 : pr = (b.NAME, b) :=
          List.inj_on_of_nodup_map inv3 hprm hmem (by simpa using hpred)
        rw [hpr2]

/-- Appending entries on the right does not change an id scan that already
succeeds. -/
lemma findValById_append_of_some {i : Int} {v : AbstractPacket}
    {d1 : List (String × AbstractPacket)} (d2 : List (String × AbstractPacket))
    (h : findValById i d1 = some v) : findValById i (d1 ++ d2) = some v := by
  unfold findValById at h ⊢
  rcases Option.map_eq_some'.mp h with ⟨a, ha, hv⟩
  rw [List.find?_append, ha]
  simp [hv]

/-- An id scan that fails on the left part falls through to the appended
part. -/
lemma findValById_append_of_none {i : Int}
    {d1 : List (String × AbstractPacket)} (d2 : List (String × AbstractPacket))
    (h : findValById i d1 = none) : findValById i (d1 ++ d2) = findValById i d2 := by
  unfold findValById at h ⊢
  rw [List.find?_append, Option.map_eq_none'.mp h]
  simp

/-- A successful registration without override has a fresh name and a fresh
id, appends the entry to the name map, and touches the hot-path cache exactly
when the packet is a request packet flagged for the player loop. -/
lemma registerPacket_fresh_ok {pk : AbstractPacket} {s sr : PacketState} {w : Bool}
    (hov : pk.OVERRIDE = false) (hreg : registerPacket pk s = .ok sr w) :
    dictContains pk.NAME s.packetDict = false ∧
    (getAllPacketIds s).any (fun i => decide (i = pk.ID)) = false ∧
    sr.packetDict = s.packetDict ++ [(pk.NAME, pk)] ∧
    sr.loopPackets = (if pk.isRequestPacket && pk.PLAYERLOOP then
      dictInsert pk.ID pk s.loopPackets else s.loopPackets) := by
  by_cases hN : dictContains pk.NAME s.packetDict = true
  · simp [registerPacket, registerPacketChecks, hov, hN] at hreg
  · have hN2 : dictContains pk.NAME s.packetDict = false := by
      cases h : dictContains pk.NAME s.packetDict
      · rfl
      · exact absurd h hN
    by_cases hI : (getAllPacketIds s).any (fun i => decide (i = pk.ID)) = true
    · simp [registerPacket, registerPacketChecks, hov, hN2, hI] at hreg
    · have hI2 : (getAllPacketIds s).any (fun i => decide (i = pk.ID)) = false := by
        cases h : (getAllPacketIds s).any (fun i => decide (i = pk.ID))
        · rfl
        · exact absurd h hI
      simp only [registerPacket, registerPacketChecks, hov, hN2, hI2,
        Bool.false_eq_true, if_false, Bool.not_false, Bool.and_false,
        Bool.false_and, Bool.and_true, if_true] at hreg
      rw [RegResult.ok.injEq] at hreg
      obtain ⟨hstate, hw⟩ := hreg
      subst hstate
      refine ⟨hN2, hI2, ?_, rfl⟩
      exact dictInsert_of_not_contains hN2

/-- Invariant of a request-direction packet manager maintained by
override-free registration: every cache entry is a request packet flagged for
the player loop whose id scan over the registered values finds it back, and
every flagged registered value sits in the cache at its id. -/
def PacketInv (s : PacketState) : Prop :=
  (∀ pr ∈ s.loopPackets, pr.2.isRequestPacket = true ∧ pr.2.PLAYERLOOP = true ∧
      pr.2.ID = pr.1 ∧ findValById pr.1 s.packetDict = some pr.2) ∧
  (∀ pr ∈ s.packetDict, pr.2.isRequestPacket = true → pr.2.PLAYERLOOP = true →
      dictFind pr.2.ID s.loopPackets = some pr.2)

/-- One override-free successful registration preserves the hot-path cache
invariant. -/
lemma PacketInv_step {pk : AbstractPacket} {s sr : PacketState} {w : Bool}
    (hov : pk.OVERRIDE = false) (hinv : PacketInv s)
    (hreg : registerPacket pk s = .ok sr w) : PacketInv sr := by
  obtain ⟨hN, hI, hD, hL⟩ := registerPacket_fresh_ok hov hreg
  obtain ⟨inv1, inv2⟩ := hinv
  have hidfresh : ∀ pr ∈ s.packetDict, pr.2.ID ≠ pk.ID := by
    intro pr hpr he
    have hIn : ¬((getAllPacketIds s).any (fun i => decide (i = pk.ID)) = true) := by
      simp [hI]
    apply hIn
    rw [List.any_eq_true]
    refine ⟨pr.2.ID, ?_, by simp [he]⟩
    exact List.mem_map_of_mem _ hpr
  have hfindNone : findValById pk.ID s.packetDict = none := by
    unfold findValById
    rw [Option.map_eq_none', List.find?_eq_none]
    intro x hx
    simpa using hidfresh x hx
  have hloopNone : dictFind pk.ID s.loopPackets = none := by
    cases hc : dictFind pk.ID s.loopPackets with
    | none => rfl
    | some v =>
      exfalso
      have hm := mem_of_dictFind_eq_some hc
      have h4 := (inv1 (pk.ID, v) hm).2.2.2
      rw [hfindNone] at h4
      cases h4
  by_cases hflag : (pk.isRequestPacket && pk.PLAYERLOOP) = true
  · have hL2 : sr.loopPackets = s.loopPackets ++ [(pk.ID, pk)] := by
      rw [hL, if_pos hflag]
      exact dictInsert_of_not_contains (dictContains_false_iff.mpr hloopNone)
    obtain ⟨hreq, hpl⟩ := Bool.and_eq_true_iff.mp hflag
    constructor
    · intro pr hpr
      rw [hL2] at hpr
      rw [hD]
      rcases List.mem_append.mp hpr with hm | hm
      · obtain ⟨h1, h2, h3, h4⟩ := inv1 pr hm
        exact ⟨h1, h2, h3, findValById_append_of_some _ h4⟩
      · have hpr2 : pr = (pk.ID, pk) := by simpa using hm
        subst hpr2
        refine ⟨hreq, hpl, rfl, ?_⟩
        rw [findValById_append_of_none _ hfindNone]
        simp [findValById]
    · intro pr hpr _ _
      rw [hD] at hpr
      rw [hL2]
      rcases List.mem_append.mp hpr with hm | hm
      · rename_i hr2 hp2
        have h5 := inv2 pr hm hr2 hp2
        exact dictFind_append_of_some _ h5
      · have hpr2 : pr = (pk.NAME, pk) := by simpa using hm
        subst hpr2
        rw [dictFind_append_of_none _ hloopNone, dictFind_singleton]
  · have hL2 : sr.loopPackets = s.loopPackets := by
      rw [hL, if_neg hflag]
    constructor
    · intro pr hpr
      rw [hL2] at hpr
      rw [hD]
      obtain ⟨h1, h2, h3, h4⟩ := inv1 pr hpr
      exact ⟨h1, h2, h3, findValById_append_of_some _ h4⟩
    · intro pr hpr hr2 hp2
      rw [hD] at hpr
      rw [hL2]
      rcases List.mem_append.mp hpr with hm | hm
      · exact inv2 pr hm hr2 hp2
      · exfalso
        have hpr2 : pr = (pk.NAME, pk) := by simpa using hm
        subst hpr2
        apply hflag
        rw [Bool.and_eq_true_iff]
        exact ⟨hr2, hp2⟩

/-- Running an override-free list of packet registrations preserves the
hot-path cache invariant. -/
lemma registerPacketSeq_inv (ps : List AbstractPacket) :
    ∀ (s sr : PacketState) (w : Bool),
    (∀ pk ∈ ps, pk.OVERRIDE = false) →
    PacketInv s → registerPacketSeq ps s = .ok sr w → PacketInv sr := by
  induction ps with
  | nil =>
    intro s sr w _ hinv hrun
    simp only [registerPacketSeq] at hrun
    rw [RegResult.ok.injEq] at hrun
    rw [← hrun.1]
    exact hinv
  | cons pk ps ih =>
    intro s sr w hall hinv hrun
    simp only [registerPacketSeq] at hrun
    cases hr : registerPacket pk s with
    | err e s1 => rw [hr] at hrun; simp at hrun
    | ok s1 w1 =>
      rw [hr] at hrun
      have hinv1 := PacketInv_step (hall pk (by simp)) hinv hr
      exact ih s1 sr w (fun x hx => hall x (by simp [hx])) hinv1 hrun

/-- A list equal to its own strip is not shortened by the leading
whitespace drop. -/
lemma dropWhile_eq_self_of_pyStrip {s : List Nat} (h : pyStrip s = s) :
    s.dropWhile isPySpace = s := by
  have h1 : (s.dropWhile isPySpace).length ≤ s.length :=
    (List.dropWhile_sublist _).length_le
  have h2 : s.length ≤ (s.dropWhile isPySpace).length := by
    have hlen : (pyStrip s).length ≤ (s.dropWhile isPySpace).length := by
      unfold pyStrip
      rw [List.length_reverse]
      calc ((s.dropWhile isPySpace).reverse.dropWhile isPySpace).length
          ≤ (s.dropWhile isPySpace).reverse.length :=
            (List.dropWhile_sublist _).length_le
        _ = (s.dropWhile isPySpace).length := List.length_reverse _
    rw [h] at hlen
    exact hlen
  exact (List.dropWhile_sublist _).eq_of_length (le_antisymm h1 h2)

/-- A list equal to its own strip is not shortened by the trailing
whitespace drop either. -/
lemma dropWhile_reverse_eq_of_pyStrip {s : List Nat} (h : pyStrip s = s) :
    s.reverse.dropWhile isPySpace = s.reverse := by
  have h1 := dropWhile_eq_self_of_pyStrip h
  have h3 := h
  unfold pyStrip at h3
  rw [h1] at h3
  exact List.reverse_eq_iff.mp h3

/-- Leading space padding is consumed by the whitespace drop. -/
lemma dropWhile_replicate_append (k : Nat) (l : List Nat) :
    (List.replicate k 32 ++ l).dropWhile isPySpace = l.dropWhile isPySpace := by
  induction k with
  | zero => simp
  | succ n ih =>
    rw [List.replicate_succ, List.cons_append, List.dropWhile_cons,
      if_pos (by decide : isPySpace 32 = true)]
    exact ih

/-- Stripping a strip-fixed list padded on the right with spaces recovers the
list. -/
lemma pyStrip_append_replicate {s : List Nat} (k : Nat) (h : pyStrip s = s) :
    pyStrip (s ++ List.replicate k 32) = s := by
  cases s with
  | nil =>
    rw [List.nil_append]
    unfold pyStrip
    have hdk : (List.replicate k 32).dropWhile isPySpace = [] := by
      have h2 := dropWhile_replicate_append k []
      simpa using h2
    rw [hdk]
    simp
  | cons a t =>
    have h1 := dropWhile_eq_self_of_pyStrip h
    have hpa : isPySpace a = false := by
      by_cases hp : isPySpace a = true
      · exfalso
        rw [List.dropWhile_cons, if_pos hp] at h1
        have hle := (List.dropWhile_sublist (l := t) isPySpace).length_le
        have hlen := congrArg List.length h1
        simp only [List.length_cons] at hlen
        omega
      · cases hq : isPySpace a
        · rfl
        · exact absurd hq hp
    have h2 := dropWhile_reverse_eq_of_pyStrip h
    unfold pyStrip
    rw [List.cons_append, List.dropWhile_cons, if_neg (by simp [hpa]),
      ← List.cons_append, List.reverse_append, List.reverse_replicate,
      dropWhile_replicate_append, h2]
    exact List.reverse_reverse _

/-- When the data fits the width and is plain ASCII, packageString pads it on
the right with spaces to exactly the width. -/
lemma packageString_of_fits {s : List Nat} {w : Nat} (hlen : s.length ≤ w)
    (hascii : s.all (fun b => decide (b < 128)) = true) :
    packageString s w = some (s ++ List.replicate (w - s.length) 32) := by
  unfold packageString
  rw [List.take_of_length_le hlen]
  have hrep : (List.replicate (w - s.length) 32).all
      (fun b => decide (b < 128)) = true := by
    rw [List.all_eq_true]
    intro x hx
    rcases List.mem_replicate.mp hx with ⟨_, rfl⟩
    decide
  have hall : (ljust s w).all (fun b => decide (b < 128)) = true := by
    unfold ljust
    rw [List.all_append, hascii, hrep]
    rfl
  rw [if_pos hall]
  unfold ljust
  rfl

/-- Unpacking NUL-free strip-fixed ASCII data padded with spaces recovers the
data. -/
lemma unpackString_padded {s : List Nat} (k : Nat)
    (hnul : ∀ b ∈ s, b ≠ 0) (hascii : s.all (fun b => decide (b < 128)) = true)
    (hstrip : pyStrip s = s) :
    unpackString (s ++ List.replicate k 32) = s := by
  unfold unpackString
  have hf1 : (s ++ List.replicate k 32).filter (fun b => decide (b ≠ 0))
      = s ++ List.replicate k 32 := by
    rw [List.filter_eq_self]
    intro a ha
    rcases List.mem_append.mp ha with hm | hm
    · simpa using hnul a hm
    · rcases List.mem_replicate.mp hm with ⟨_, rfl⟩
      decide
  have hf2 : (s ++ List.replicate k 32).filter (fun b => decide (b < 128))
      = s ++ List.replicate k 32 := by
    rw [List.filter_eq_self]
    intro a ha
    rcases List.mem_append.mp ha with hm | hm
    · exact List.all_eq_true.mp hascii a hm
    · rcases List.mem_replicate.mp hm with ⟨_, rfl⟩
      decide
  rw [hf1, hf2]
  exact pyStrip_append_replicate k hstrip

def stoneA : AbstractBlock := ⟨"Stone", 1, "ModuleA", false⟩

def stoneB2 : AbstractBlock := ⟨"Stone", 2, "ModuleB", false⟩

def stoneB2over : AbstractBlock := ⟨"Stone", 2, "ModuleB", true⟩

def stoneState : BlockState := ⟨[("Stone", stoneA)], [(1, stoneA)]⟩

/-- Claim C1, counterexample: in the spec scenario, the third step does not
succeed on the code. After registering Stone id 1 from module A and failing
the override-free duplicate, re-registering Stone id 2 module B with
override=true raises KeyError (the override debug message of blocks.py line 91
indexes `_blockIds` by the new id 2, which is absent) instead of succeeding,
and `lookupById(1)` still returns the old entry instead of failing with
NotFound. -/
theorem c1_counterexample :
    registerBlock stoneA ⟨[], []⟩ = .ok stoneState false ∧
    registerBlock stoneB2 stoneState = .err .initRegisterError stoneState ∧
    registerBlock stoneB2over stoneState = .err .keyError stoneState ∧
    getBlockById 1 stoneState = .ok stoneA := by
  decide

/-- Claim C1 (amended): registering Stone id 1 module A succeeds; registering
Stone id 2 module B with override=false fails with RegistrationConflict; the
re-registration with override=true raises KeyError from the override debug
message and leaves the registry unchanged, so `lookupByName("stone")` still
returns the id-1/module-A entry, `lookupById(1)` still returns it, and id 2 is
not indexed. -/
theorem c1_amended_scenario :
    registerBlock stoneA ⟨[], []⟩ = .ok stoneState false ∧
    registerBlock stoneB2 stoneState = .err .initRegisterError stoneState ∧
    registerBlock stoneB2over stoneState = .err .keyError stoneState ∧
    getBlock "stone" stoneState true = .ok stoneA ∧
    getBlockById 1 stoneState = .ok stoneA ∧
    getBlockById 2 stoneState = .error .blockError := by
  decide

def blockX : AbstractBlock := ⟨"X", 1, "ModuleA", false⟩

def blockY : AbstractBlock := ⟨"Y", 1, "ModuleB", true⟩

def c2state1 : BlockState := ⟨[("X", blockX)], [(1, blockX)]⟩

def c2state2 : BlockState := ⟨[("X", blockX), ("Y", blockY)], [(1, blockY)]⟩

/-- Claim C2, counterexample: two successful register calls (the second with
override=true on a colliding id under a fresh name) leave the views
disagreeing: `lookupByName("X")` returns the old entry, whose id 1 now
resolves by `lookupById` to the different overriding entry. -/
theorem c2_counterexample :
    registerBlock blockX ⟨[], []⟩ = .ok c2state1 false ∧
    registerBlock blockY c2state1 = .ok c2state2 false ∧
    getBlock "X" c2state2 true = .ok blockX ∧
    getBlockById blockX.ID c2state2 = .ok blockY ∧
    blockX ≠ blockY := by
  decide

/-- Claim C2 (amended): for every sequence of successful register calls with
override=false throughout and names pairwise distinct case-insensitively, the
two views agree: every entry returned by the default case-insensitive
`lookupByName` is returned identically by `lookupById` at its id, and
conversely. -/
theorem c2_amended_agree (bs : List AbstractBlock) (s : BlockState) (w : Bool)
    (hov : ∀ b ∈ bs, b.OVERRIDE = false)
    (hci : (bs.map (fun b => pyLower b.NAME)).Nodup)
    (hrun : registerBlockSeq bs ⟨[], []⟩ = .ok s w) :
    (∀ (q : String) (b : AbstractBlock), getBlock q s true = .ok b →
        getBlockById b.ID s = .ok b) ∧
    (∀ (i : Int) (b : AbstractBlock), getBlockById i s = .ok b →
        getBlock b.NAME s true = .ok b) := by
  have hinv : BlockInv s := by
    apply registerBlockSeq_inv bs ⟨[], []⟩ s w hov ?_ ?_ hrun
    · simpa using hci
    · refine ⟨?_, ?_, ?_⟩ <;> simp
  exact blockInv_lookup_agree hinv

def c2wBlock : AbstractBlock := ⟨"Stone", 1, "Core", false⟩

/-- Witness for the amended C2 theorem at a concrete one-element sequence. -/
theorem c2_amended_agree_witness :
    getBlockById (1 : Int) ⟨[("Stone", c2wBlock)], [(1, c2wBlock)]⟩ = .ok c2wBlock := by
  have h := c2_amended_agree [c2wBlock] ⟨[("Stone", c2wBlock)], [(1, c2wBlock)]⟩
    false (by decide) (by decide) (by decide)
  exact h.1 "stone" c2wBlock (by decide)

/-- Claim C3: with override=false, a registration whose name or id already
belongs to a registered entry fails with RegistrationConflict
(InitRegisterError in the code), and the state carried by the raised error is
the input state: both managers raise before any map or cache mutation, so the
original entries stay retrievable unchanged. -/
theorem c3_conflict_unchanged :
    (∀ (b : AbstractBlock) (s : BlockState), b.OVERRIDE = false →
      (dictContains b.NAME s.blockDict = true ∨
        dictContains b.ID s.blockIds = true) →
      registerBlock b s = .err .initRegisterError s) ∧
    (∀ (pk : AbstractPacket) (ps : PacketState), pk.OVERRIDE = false →
      (dictContains pk.NAME ps.packetDict = true ∨
        (getAllPacketIds ps).any (fun i => decide (i = pk.ID)) = true) →
      registerPacket pk ps = .err .initRegisterError ps) := by
  constructor
  · intro b s hov hcol
    rcases hcol with h | h
    · simp [registerBlock, registerBlockChecks, hov, h]
    · by_cases hN : dictContains b.NAME s.blockDict = true
      · simp [registerBlock, registerBlockChecks, hov, hN]
      · have hN2 : dictContains b.NAME s.blockDict = false := by
          cases hq : dictContains b.NAME s.blockDict
          · rfl
          · exact absurd hq hN
        simp [registerBlock, registerBlockChecks, hov, hN2, h]
  · intro pk ps hov hcol
    rcases hcol with h | h
    · simp [registerPacket, registerPacketChecks, hov, h]
    · by_cases hN : dictContains pk.NAME ps.packetDict = true
      · simp [registerPacket, registerPacketChecks, hov, hN]
      · have hN2 : dictContains pk.NAME ps.packetDict = false := by
          cases hq : dictContains pk.NAME ps.packetDict
          · rfl
          · exact absurd hq hN
        simp [registerPacket, registerPacketChecks, hov, hN2, h]

def c3Old : AbstractBlock := ⟨"Stone", 1, "ModuleA", false⟩

def c3Block : AbstractBlock := ⟨"Stone", 1, "ModuleB", false⟩

def c3BState : BlockState := ⟨[("Stone", c3Old)], [(1, c3Old)]⟩

def c3OldPk : AbstractPacket := ⟨"Ping", 5, "ModuleA", false, false, false, true⟩

def c3Pk : AbstractPacket := ⟨"Ping", 5, "ModuleB", false, false, false, true⟩

def c3PState : PacketState := ⟨[("Ping", c3OldPk)], []⟩

/-- Witness for C3 at concrete colliding registrations in both managers. -/
theorem c3_conflict_unchanged_witness :
    registerBlock c3Block c3BState = .err .initRegisterError c3BState ∧
    registerPacket c3Pk c3PState = .err .initRegisterError c3PState := by
  constructor
  · exact c3_conflict_unchanged.1 c3Block c3BState (by decide) (Or.inl (by decide))
  · exact c3_conflict_unchanged.2 c3Pk c3PState (by decide) (Or.inl (by decide))

def c4p0 : AbstractPacket := ⟨"TestPacket", 5, "ModuleA", false, false, false, true⟩

def c4pOver : AbstractPacket := ⟨"TestPacket", 5, "ModuleB", true, false, false, true⟩

def c4State : PacketState := ⟨[("TestPacket", c4p0)], []⟩

/-- Claim C4, evaluation at the failing input: re-registering the same name
and the same id with override=true collides on both keys, yet the packet
manager emits the override-no-effect warning (the warned flag of the result is
true), because the membership tests of packet.py line 151 compare the id
against the name-keyed dict and the name against the id list. -/
theorem c4_code_eval :
    registerPacket c4p0 ⟨[], []⟩ = .ok c4State false ∧
    dictContains c4pOver.NAME c4State.packetDict = true ∧
    (getAllPacketIds c4State).any (fun i => decide (i = c4pOver.ID)) = true ∧
    registerPacket c4pOver c4State = .ok ⟨[("TestPacket", c4pOver)], []⟩ true := by
  decide

def c5q1 : AbstractPacket := ⟨"PlayerMove", 7, "ModuleA", false, false, true, true⟩

def c5q2 : AbstractPacket := ⟨"PlayerMove", 7, "ModuleB", true, false, false, true⟩

def c5s1 : PacketState := ⟨[("PlayerMove", c5q1)], [(7, c5q1)]⟩

def c5s2 : PacketState := ⟨[("PlayerMove", c5q2)], [(7, c5q1)]⟩

/-- Claim C5, counterexample: after an override re-registration that replaces
a hot-path packet by one not flagged for the player loop, the cache still
holds the stale old object at opcode 7 while the registry lookup by id
returns the new one. -/
theorem c5_counterexample :
    registerPacket c5q1 ⟨[], []⟩ = .ok c5s1 false ∧
    registerPacket c5q2 c5s1 = .ok c5s2 true ∧
    dictFind (7 : Int) c5s2.loopPackets = some c5q1 ∧
    getPacketById 7 c5s2 = .ok c5q2 ∧
    c5q1 ≠ c5q2 := by
  decide

/-- Claim C5 (amended): after every sequence of successful override-free
registrations, the hot-path cache agrees with the general registry: every
cache entry is a request packet flagged for the player loop and is the
identical object returned by `getPacketById` at its opcode, and every flagged
registered definition appears in the cache at its id. -/
theorem c5_amended_cache_agree (ps : List AbstractPacket) (s : PacketState)
    (w : Bool)
    (hov : ∀ pk ∈ ps, pk.OVERRIDE = false)
    (hrun : registerPacketSeq ps ⟨[], []⟩ = .ok s w) :
    (∀ pr ∈ s.loopPackets, pr.2.isRequestPacket = true ∧
        pr.2.PLAYERLOOP = true ∧ getPacketById pr.1 s = .ok pr.2) ∧
    (∀ pr ∈ s.packetDict, pr.2.isRequestPacket = true →
        pr.2.PLAYERLOOP = true → dictFind pr.2.ID s.loopPackets = some pr.2) := by
  have hinv : PacketInv s := by
    apply registerPacketSeq_inv ps ⟨[], []⟩ s w hov ?_ hrun
    refine ⟨?_, ?_⟩ <;> simp
  obtain ⟨inv1, inv2⟩ := hinv
  refine ⟨?_, inv2⟩
  intro pr hpr
  obtain ⟨h1, h2, h3, h4⟩ := inv1 pr hpr
  refine ⟨h1, h2, ?_⟩
  unfold getPacketById
  rw [h4]

def c5w : AbstractPacket := ⟨"PlayerMove", 7, "Core", false, false, true, true⟩

/-- Witness for the amended C5 theorem at a concrete one-element sequence. -/
theorem c5_amended_cache_agree_witness :
    getPacketById 7 ⟨[("PlayerMove", c5w)], [(7, c5w)]⟩ = .ok c5w := by
  have h := c5_amended_cache_agree [c5w] ⟨[("PlayerMove", c5w)], [(7, c5w)]⟩
    false (by decide) (by decide)
  exact (h.1 (7, c5w) (by decide)).2.2

/-- Claim C6, counterexample: a two-byte string with a leading space fits a
width of 4, yet decoding the encoding strips the leading space: the round trip
returns a different string. -/
theorem c6_counterexample :
    Option.map unpackString (packageString [32, 97] 4) = some [97] ∧
    ([97] : List Nat) ≠ [32, 97] := by
  decide

/-- Claim C6 (amended): the round trip holds for strings that fit the width,
are plain ASCII, contain no NUL byte, and carry no leading or trailing
whitespace (are fixed by strip); in particular packString of "hi" at width 4
is exactly "hi" followed by two spaces, which unpacks back to "hi". -/
theorem c6_amended_roundtrip (s : List Nat) (w : Nat)
    (hlen : s.length ≤ w)
    (hascii : s.all (fun b => decide (b < 128)) = true)
    (hnul : ∀ b ∈ s, b ≠ 0)
    (hstrip : pyStrip s = s) :
    Option.map unpackString (packageString s w) = some s ∧
    packageString [104, 105] 4 = some [104, 105, 32, 32] ∧
    unpackString [104, 105, 32, 32] = [104, 105] := by
  refine ⟨?_, by decide, by decide⟩
  rw [packageString_of_fits hlen hascii]
  rw [Option.map_some']
  rw [unpackString_padded (w - s.length) hnul hascii hstrip]

/-- Witness for the amended C6 theorem at the "hi" instance of the claim. -/
theorem c6_amended_roundtrip_witness :
    Option.map unpackString (packageString [104, 105] 4) = some [104, 105] :=
  (c6_amended_roundtrip [104, 105] 4 (by decide) (by decide)
    (by decide) (by decide)).1

/-- Claim C7, counterexample: an interior NUL byte and leading spaces are
removed by unpackString, not preserved. -/
theorem c7_counterexample :
    unpackString [97, 0, 98] = [97, 98] ∧
    unpackString [32, 32, 104, 105] = [104, 105] ∧
    ([97, 98] : List Nat) ≠ [97, 0, 98] ∧
    ([104, 105] : List Nat) ≠ [32, 32, 104, 105] := by
  decide

/-- Claim C7 (amended): unpackString removes every NUL byte wherever it
occurs, strips leading whitespace as well as trailing, and preserves the rest:
on ASCII data with no NUL and fixed by strip it is the identity. -/
theorem c7_amended_unpack :
    (∀ (l r : List Nat), unpackString (l ++ 0 :: r) = unpackString (l ++ r)) ∧
    (∀ (data : List Nat), unpackString (32 :: data) = unpackString data) ∧
    (∀ (data : List Nat), (∀ b ∈ data, b ≠ 0) →
      data.all (fun b => decide (b < 128)) = true → pyStrip data = data →
      unpackString data = data) := by
  refine ⟨?_, ?_, ?_⟩
  · intro l r
    unfold unpackString
    rw [List.filter_append, List.filter_append, List.filter_cons]
    simp
  · intro data
    unfold unpackString
    rw [List.filter_cons, if_pos (by decide), List.filter_cons,
      if_pos (by decide)]
    unfold pyStrip
    rw [List.dropWhile_cons, if_pos (by decide : isPySpace 32 = true)]
  · intro data hnul hascii hstrip
    have h := unpackString_padded 0 hnul hascii hstrip
    simpa using h

/-- Witness for the amended C7 theorem at concrete clean data. -/
theorem c7_amended_unpack_witness :
    unpackString [104, 105] = [104, 105] :=
  c7_amended_unpack.2.2 [104, 105] (by decide) (by decide) (by decide)

/-- Claim C8, evaluation at the failing input: a connection with an empty
capability set still receives the SetClickDistance packet when the join hook
of clickdistance.py runs, because that hook never consults supports; the
TextHotKey hook by contrast sends nothing to such a connection and sends the
hotkey packet to one that negotiated ("TextHotKey", 1). -/
theorem c8_code_eval :
    sendClickDistance [] 160 = [SentPacket.setClickDistance 160] ∧
    sendTextHotkeys [] [⟨"help", "/help", 40, 0⟩] = [] ∧
    sendTextHotkeys [⟨"TextHotKey", 1⟩] [⟨"help", "/help", 40, 0⟩]
      = [SentPacket.setTextHotKey "help" "/help" 40 0] := by
  decide

def c9b1 : AbstractBlock := ⟨"Stone", 1, "ModuleA", false⟩

def c9b2 : AbstractBlock := ⟨"STONE", 2, "ModuleB", false⟩

def c9s1 : BlockState := ⟨[("Stone", c9b1)], [(1, c9b1)]⟩

def c9s2 : BlockState := ⟨[("Stone", c9b1), ("STONE", c9b2)], [(1, c9b1), (2, c9b2)]⟩

/-- Claim C9, counterexample: two entries whose names differ only by case can
both be registered (the duplicate check is exact-case); querying the second
name returns the first-registered entry, not the entry whose name the query
matches exactly. -/
theorem c9_counterexample :
    registerBlock c9b1 ⟨[], []⟩ = .ok c9s1 false ∧
    registerBlock c9b2 c9s1 = .ok c9s2 false ∧
    getBlock "STONE" c9s2 true = .ok c9b1 ∧
    c9b1 ≠ c9b2 := by
  decide

/-- The case-insensitive scan of a name dict returns the first entry in
insertion order whose lowercased name matches: whenever the dict splits into a
matching entry preceded only by non-matching ones, that entry is found. -/
lemma find_ci_first {β : Type} (q : String) (l1 l2 : List (String × β))
    (pr : String × β) (hm : pyLower pr.1 = pyLower q)
    (hl1 : ∀ pr1 ∈ l1, pyLower pr1.1 ≠ pyLower q) :
    (l1 ++ pr :: l2).find? (fun p => decide (pyLower p.1 = pyLower q))
      = some pr := by
  rw [List.find?_append]
  have h1 : l1.find? (fun p => decide (pyLower p.1 = pyLower q)) = none := by
    rw [List.find?_eq_none]
    intro x hx
    simpa using hl1 x hx
  rw [h1, List.find?_cons_of_pos _ (by simpa using hm)]
  rfl

/-- The case-insensitive scan fails exactly when no name matches. -/
lemma find_ci_eq_none_iff {β : Type} (q : String) (d : List (String × β)) :
    d.find? (fun p => decide (pyLower p.1 = pyLower q)) = none ↔
      ∀ pr ∈ d, pyLower pr.1 ≠ pyLower q := by
  rw [List.find?_eq_none]
  simp

/-- Claim C9 (amended): in both managers, the default case-insensitive name
lookup returns the first-registered entry whose name matches the query
case-insensitively — whenever the name dict splits into a case-insensitive
match preceded only by non-matches, that entry is returned, however many later
entries also match — and fails with NotFound exactly when no registered name
matches the query case-insensitively. -/
theorem c9_amended_lookup (s : BlockState) (ps : PacketState) (q : String) :
    (getBlock q s true = .error .keyError ↔
      ∀ pr ∈ s.blockDict, pyLower pr.1 ≠ pyLower q) ∧
    (∀ (l1 l2 : List (String × AbstractBlock)) (pr : String × AbstractBlock),
      s.blockDict = l1 ++ pr :: l2 → pyLower pr.1 = pyLower q →
      (∀ pr1 ∈ l1, pyLower pr1.1 ≠ pyLower q) →
      getBlock q s true = .ok pr.2) ∧
    (getPacket q ps true = .error .keyError ↔
      ∀ pr ∈ ps.packetDict, pyLower pr.1 ≠ pyLower q) ∧
    (∀ (l1 l2 : List (String × AbstractPacket)) (pr : String × AbstractPacket),
      ps.packetDict = l1 ++ pr :: l2 → pyLower pr.1 = pyLower q →
      (∀ pr1 ∈ l1, pyLower pr1.1 ≠ pyLower q) →
      getPacket q ps true = .ok pr.2) := by
  have hredB : getBlock q s true
      = (match s.blockDict.find? (fun p => decide (pyLower p.1 = pyLower q)) with
        | some p => LookupResult.ok p.2
        | none => LookupResult.error RegError.keyError) := rfl
  have hredP : getPacket q ps true
      = (match ps.packetDict.find? (fun p => decide (pyLower p.1 = pyLower q)) with
        | some p => LookupResult.ok p.2
        | none => LookupResult.error RegError.keyError) := rfl
  refine ⟨?_, ?_, ?_, ?_⟩
  · rw [hredB]
    cases hf : s.blockDict.find? (fun p => decide (pyLower p.1 = pyLower q)) with
    | some pr =>
      constructor
      · intro habs
        exact LookupResult.noConfusion habs
      · intro hall
        exfalso
        have hm := List.mem_of_find?_eq_some hf
        have hp := List.find?_some hf
        exact hall pr hm (by simpa using hp)
    | none =>
      constructor
      · intro _
        exact (find_ci_eq_none_iff q _).mp hf
      · intro _
        rfl
  · intro l1 l2 pr hd hm hl1
    rw [hredB, hd, find_ci_first q l1 l2 pr hm hl1]
  · rw [hredP]
    cases hf : ps.packetDict.find? (fun p => decide (pyLower p.1 = pyLower q)) with
    | some pr =>
      constructor
      · intro habs
        exact LookupResult.noConfusion habs
      · intro hall
        exfalso
        have hm := List.mem_of_find?_eq_some hf
        have hp := List.find?_some hf
        exact hall pr hm (by simpa using hp)
    | none =>
      constructor
      · intro _
        exact (find_ci_eq_none_iff q _).mp hf
      · intro _
        rfl
  · intro l1 l2 pr hd hm hl1
    rw [hredP, hd, find_ci_first q l1 l2 pr hm hl1]

def c9pk1 : AbstractPacket := ⟨"Move", 3, "ModuleA", false, false, false, true⟩

def c9pk2 : AbstractPacket := ⟨"MOVE", 4, "ModuleB", false, false, false, true⟩

def c9ps2 : PacketState := ⟨[("Move", c9pk1), ("MOVE", c9pk2)], []⟩

/-- Witness for the amended C9 theorem at concrete multi-match states of both
managers: two case-insensitive matches are registered and the
first-registered one is returned. -/
theorem c9_amended_lookup_witness :
    getBlock "STONE" c9s2 true = .ok c9b1 ∧
    getPacket "MOVE" c9ps2 true = .ok c9pk1 := by
  have h := c9_amended_lookup c9s2 c9ps2 "STONE"
  have hp := c9_amended_lookup c9s2 c9ps2 "MOVE"
  constructor
  · exact h.2.1 [] [("STONE", c9b2)] ("Stone", c9b1)
      (by decide) (by decide) (by decide)
  · exact hp.2.2.2 [] [("MOVE", c9pk2)] ("Move", c9pk1)
      (by decide) (by decide) (by decide)

def c10b : AbstractBlock := ⟨"Stone", 1, "ModuleA", false⟩

def c10s : BlockState := ⟨[("Stone", c10b)], [(1, c10b)]⟩

def c10p : AbstractPacket := ⟨"TestPacket", 5, "ModuleA", false, false, false, true⟩

def c10ps : PacketState := ⟨[("TestPacket", c10p)], []⟩

/-- Claim C10: membership is exact-case while the default lookup is
case-insensitive: a query differing from a registered name only by case is
found by the lookup but reported absent by the containment test, on the block
manager and on the directional packet manager alike. -/
theorem c10_contains_mismatch :
    getBlock "stone" c10s true = .ok c10b ∧
    blockContains "stone" c10s = false ∧
    blockContains "Stone" c10s = true ∧
    getPacket "testpacket" c10ps true = .ok c10p ∧
    packetContains "testpacket" c10ps = false ∧
    packetContains "TestPacket" c10ps = true := by
  decide

end Obsidian
